import Mathlib

/-!
Verification of the rename-edit computation (`src/services/getEditsForFileRename.ts`).

Paths and import texts are modelled as lists of characters (`Str`).  The
functions defined in the source file itself (`getEditsForFileRename`,
`updateTsconfigFiles`, `updateImports`, `updateImportsWorker`,
`getInternalPathUpdater`, `getRelative`, `toDirectory`,
`importIsInternalToDirectory`, `getExternalPathUpdater`, `combineNormal`,
`removeDirectoryPrefixFromPath`, `combinePathsSafe`, `endsWithSomeIndex`,
`pathToImportPath`, `tryRemoveIndexOrPackage`, `createStringRange`) are
translated from the source.  The path-arithmetic and string utilities the
source imports from elsewhere in the repository (they are not under `src/`)
are modelled from the spec, as marked on each such definition.

JavaScript `undefined` becomes `Option.none`; the `Debug.assertDefined`
call inside the external updater can throw, so every computation that can
reach it runs in `Except Unit`.  JavaScript truthiness of an optional
string (`undefined` and `""` are falsy) is modelled by `jsTruthy`.
-/

/-- Characters of a path, import text or replacement text. -/
abbrev Str := List Char

/-- Modelled from the spec: string `startsWith` used by the repository's utilities. -/
def strStartsWith (s p : Str) : Bool := p.isPrefixOf s

/-- Modelled from the spec: string `endsWith` used by the repository's utilities. -/
def strEndsWith (s p : Str) : Bool := p.isSuffixOf s

/-- Modelled from the spec: the repository's `tryRemovePrefix` — remove a leading
occurrence of `p` from `s`, or report no match. -/
def tryRemoveStart (s p : Str) : Option Str :=
  if strStartsWith s p then some (s.drop p.length) else none

/-- Modelled from the spec: the repository's `tryRemoveSuffix` — remove a trailing
occurrence of `suf` from `s`, or report no match. -/
def tryRemoveSuffix (s suf : Str) : Option Str :=
  if strEndsWith s suf then some (s.take (s.length - suf.length)) else none

/-- JavaScript truthiness of a `string | undefined` value: `undefined` and the
empty string are falsy, every other string is truthy. -/
def jsTruthy : Option Str → Bool
  | some s => !s.isEmpty
  | none => false

/-- Modelled from the spec: does the path begin with the separator (posix root)? -/
def isRooted : Str → Bool
  | '/' :: _ => true
  | _ => false

/-- Modelled from the spec: `classify(text) = Relative` — a path is relative iff it
begins with a current- or parent-directory marker. -/
def pathIsRelative (p : Str) : Bool :=
  p == ['.'] || p == ['.', '.'] || ['.', '/'].isPrefixOf p || ['.', '.', '/'].isPrefixOf p

/-- Modelled from the spec: `ensurePathIsNonModuleName` — force the non-module
(relative reference) rendering of a path by prepending `./` when the path is
neither relative nor rooted. -/
def ensurePathIsNonModuleName (p : Str) : Str :=
  if pathIsRelative p || isRooted p then p else '.' :: '/' :: p

/-- Split a path body on `/`, keeping empty components (they are dropped during
normalization).  Helper for the spec-modelled path arithmetic. -/
def splitOnSlash : Str → List Str
  | [] => [[]]
  | c :: cs =>
    match splitOnSlash cs with
    | [] => [[]]
    | r :: rs => if c = '/' then [] :: r :: rs else (c :: r) :: rs

/-- Split a path into its rootedness flag and raw components.  Helper for the
spec-modelled path arithmetic. -/
def splitPath (p : Str) : Bool × List Str :=
  if isRooted p then (true, splitOnSlash (p.drop 1)) else (false, splitOnSlash p)

/-- Modelled from the spec: component normalization — drop empty and `.`
components and collapse `..` against a preceding real component; a `..` at the
root of an absolute path stays at the root. -/
def reduceParts (isAbs : Bool) (parts : List Str) : List Str :=
  parts.foldl
    (fun acc part =>
      if part = [] ∨ part = ['.'] then acc
      else if part = ['.', '.'] then
        match acc.getLast? with
        | some lastPart => if lastPart = ['.', '.'] then acc ++ [part] else acc.dropLast
        | none => if isAbs then acc else acc ++ [part]
      else acc ++ [part])
    []

/-- Rebuild a path from its rootedness flag and components.  Helper for the
spec-modelled path arithmetic. -/
def joinParts (isAbs : Bool) (parts : List Str) : Str :=
  (if isAbs then ['/'] else []) ++ List.intercalate ['/'] parts

/-- Modelled from the spec: `normalizePath` — collapse `.`/`..` segments and
duplicate separators. -/
def normalizePath (p : Str) : Str :=
  joinParts (splitPath p).1 (reduceParts (splitPath p).1 (splitPath p).2)

/-- Length of the root marker of a path (1 for a rooted posix path, else 0).
Helper for the spec-modelled path arithmetic. -/
def getRootLength (p : Str) : Nat := if isRooted p then 1 else 0

/-- Index of the last `/` in a path, 0 when there is none.  Helper for the
spec-modelled path arithmetic. -/
def lastSlashIdx : Str → Nat
  | [] => 0
  | _ :: cs => if '/' ∈ cs then lastSlashIdx cs + 1 else 0

/-- Modelled from the spec: `getDirectoryPath` — everything before the last
separator, keeping the root. -/
def getDirectoryPath (p : Str) : Str :=
  p.take (max (getRootLength p) (lastSlashIdx p))

/-- Modelled from the spec: `combinePaths` — join two paths with a single
separator; an absolute second path wins. -/
def combinePaths (a b : Str) : Str :=
  if isRooted b then b
  else if a.isEmpty then b
  else if b.isEmpty then a
  else if a.getLast? = some '/' then a ++ b else a ++ '/' :: b

/-- Source `combineNormal`: normalized join. -/
def combineNormal (pathA pathB : Str) : Str := normalizePath (combinePaths pathA pathB)

/-- Source `combinePathsSafe`: normalized join rendered in non-module form. -/
def combinePathsSafe (pathA pathB : Str) : Str :=
  ensurePathIsNonModuleName (combineNormal pathA pathB)

/-- Case folding of one path component under the active case-sensitivity
setting.  Helper for the spec-modelled path arithmetic. -/
def canonPart (ignoreCase : Bool) (s : Str) : Str :=
  if ignoreCase then s.map Char.toLower else s

/-- Number of leading components two component lists share under the active
case-sensitivity setting.  Helper for the spec-modelled path arithmetic. -/
def countCommon (ignoreCase : Bool) : List Str → List Str → Nat
  | a :: as, b :: bs =>
    if canonPart ignoreCase a = canonPart ignoreCase b then countCommon ignoreCase as bs + 1 else 0
  | _, _ => 0

/-- Modelled from the spec: `relativePath(fromDir, toDir)` — the normalized
relative path from one directory to another (`..` steps up to the deepest
common ancestor, then down), `.` when the directories coincide, computed under
the given case-sensitivity setting. -/
def getRelativePathFromDirectory (fromDir toDir : Str) (ignoreCase : Bool) : Str :=
  let f := reduceParts (isRooted fromDir) (splitPath fromDir).2
  let t := reduceParts (isRooted toDir) (splitPath toDir).2
  let n := countCommon ignoreCase f t
  let comps := List.replicate (f.length - n) ['.', '.'] ++ t.drop n
  if comps.isEmpty then ['.'] else List.intercalate ['/'] comps

/-- Modelled from the spec: the file-level relative path `rel` — relative path
from the directory of `fromFile` to `toFile`, in non-module form, honoring the
case-sensitivity setting. -/
def getRelativePathFromFile (fromFile toFile : Str) (ignoreCase : Bool) : Str :=
  ensurePathIsNonModuleName (getRelativePathFromDirectory (getDirectoryPath fromFile) toFile ignoreCase)

/-- Modelled from the spec: the recognized file extensions, most specific
first. -/
def extensionsToRemove : List Str :=
  [".d.ts".data, ".ts".data, ".js".data, ".tsx".data, ".jsx".data, ".json".data]

/-- Modelled from the spec: `removeFileExtension` — strip one recognized file
extension if present. -/
def removeFileExtension (p : Str) : Str :=
  (extensionsToRemove.findSome? (fun e => tryRemoveSuffix p e)).getD p

/-- Modelled from the spec: does the path carry a recognized file extension? -/
def isAnySupportedFileExtension (p : Str) : Bool :=
  extensionsToRemove.any (fun e => strEndsWith p e)

/-- Source `indexEndings` list, in source order. -/
def indexEndings : List Str :=
  ["/package.json".data, "/index.js".data, "/index.jsx".data, "/index.ts".data,
   "/index.d.ts".data, "/index.tsx".data]

/-- Source `tryRemoveIndexOrPackage`: strip one trailing index/package ending. -/
def tryRemoveIndexOrPackage (name : Str) : Option Str :=
  indexEndings.findSome? (fun e => tryRemoveSuffix name e)

/-- Source `pathToImportPath`: strip one index/package ending, else one file
extension (the module-specifier rendering; the spec calls it `toModuleSpecifier`). -/
def pathToImportPath (name : Str) : Str :=
  match tryRemoveIndexOrPackage name with
  | some withoutIndex => withoutIndex
  | none => removeFileExtension name

/-- Source `endsWithSomeIndex`. -/
def endsWithSomeIndex (p : Str) : Bool :=
  strEndsWith (removeFileExtension p) "index".data

/-- Source `removeDirectoryPrefixFromPath`: the suffix of `path` after
`directory`, provided it starts with a separator. -/
def removeDirectoryPrefixFromPath (directory path : Str) : Option Str :=
  match tryRemoveStart path directory with
  | none => none
  | some withoutDir => if strStartsWith withoutDir "/".data then some withoutDir else none

/-- Source `toDirectory`. -/
def toDirectory (path : Str) : Str :=
  if isAnySupportedFileExtension path then getDirectoryPath path else path

/-- Source `getRelative`: directory-level relative path, always case-sensitive
(the source hard-codes `ignoreCase = false`). -/
def getRelative (fromPath toPath : Str) : Str :=
  ensurePathIsNonModuleName
    (getRelativePathFromDirectory (toDirectory fromPath) (toDirectory toPath) false)

/-- Source `importIsInternalToDirectory`. -/
def importIsInternalToDirectory (oldDir sourceFilePath importText : Str) : Bool :=
  jsTruthy (removeDirectoryPrefixFromPath oldDir
    (combineNormal (getDirectoryPath sourceFilePath) importText))

/-- Source `getInternalPathUpdater`, applied: the updater for imports inside a
moving file. -/
def internalPathUpdater (oldFileOrDirPath newFileOrDirPath sourceFileName importText : Str) :
    Option Str :=
  let relativeNewDirToOldDir := getRelative newFileOrDirPath oldFileOrDirPath
  if relativeNewDirToOldDir = ['.'] then none
  else
    let relativeOldDirToNewDir := getRelative oldFileOrDirPath newFileOrDirPath
    if !pathIsRelative importText
        || importIsInternalToDirectory oldFileOrDirPath sourceFileName importText
        || importIsInternalToDirectory newFileOrDirPath sourceFileName importText then none
    else
      match tryRemoveStart importText (relativeOldDirToNewDir ++ ['/']) with
      | some short => some (ensurePathIsNonModuleName short)
      | none => some (combineNormal relativeNewDirToOldDir importText)

/-- Source `getExternalPathUpdater`, the `newImportText` string built in its
`fullPath === oldFileOrDirPath` branch (the bindings `rel` and `newImportText`
of the source are inlined; they are pure). -/
def externalEqualNewImportText (oldFileOrDirPath newFileOrDirPath : Str)
    (useCaseSensitiveFileNames : Bool) (fullPath importText : Str) : Str :=
  if pathIsRelative importText then
    combinePathsSafe
      (if jsTruthy (tryRemoveIndexOrPackage fullPath) && !endsWithSomeIndex importText then
        importText
      else getDirectoryPath importText)
      (getRelativePathFromFile oldFileOrDirPath newFileOrDirPath (!useCaseSensitiveFileNames))
  else newFileOrDirPath

/-- Source `getExternalPathUpdater`, applied: the updater for references in
non-moving files.  `Except.error ()` models the `Debug.assertDefined` throw;
the source's pure `rel` and `suffix` bindings are inlined. -/
def externalPathUpdater (oldFileOrDirPath newFileOrDirPath : Str)
    (useCaseSensitiveFileNames : Bool) (fullPath importText : Str) (isImport : Bool) :
    Except Unit (Option Str) :=
  if fullPath = oldFileOrDirPath then
    Except.ok (some
      (if isImport then
        pathToImportPath (externalEqualNewImportText oldFileOrDirPath newFileOrDirPath
          useCaseSensitiveFileNames fullPath importText)
      else externalEqualNewImportText oldFileOrDirPath newFileOrDirPath
        useCaseSensitiveFileNames fullPath importText))
  else
    match removeDirectoryPrefixFromPath oldFileOrDirPath fullPath with
    | none => Except.ok none
    | some relToOld =>
      if pathIsRelative importText then
        match tryRemoveSuffix importText
            (if isImport then pathToImportPath relToOld else relToOld) with
        | none => Except.error ()
        | some withoutSuffix =>
          Except.ok (some (combinePathsSafe (getDirectoryPath withoutSuffix)
            (getRelativePathFromFile oldFileOrDirPath newFileOrDirPath
              (!useCaseSensitiveFileNames)) ++
            (if isImport then pathToImportPath relToOld else relToOld)))
      else Except.ok (some (newFileOrDirPath ++
        (if isImport then pathToImportPath relToOld else relToOld)))

/-- A string-literal node: its text and the positions of its opening quote
(`startPos`, the node's `getStart`) and of the first character after its
closing quote (`endPos`, the node's `end`). -/
structure StringLiteralNode where
  text : Str
  startPos : Nat
  endPos : Nat
deriving DecidableEq, Repr

/-- A reference directive (`referencedFiles` entry): its file-name text and its
text range, which the source uses directly as the edit range. -/
structure FileReferenceModel where
  fileName : Str
  pos : Nat
  endPos : Nat
deriving DecidableEq, Repr

/-- A project source file as the orchestrator sees it: its path, its reference
directives and its import string literals, in source order. -/
structure SourceFileModel where
  fileName : Str
  referencedFiles : List FileReferenceModel
  imports : List StringLiteralNode
deriving DecidableEq, Repr

/-- Modelled from the spec: the module-resolution collaborator's cached answer —
either a resolved module file name or the ordered failed-lookup candidates. -/
structure ResolvedModuleWithFailedLookup where
  resolvedModule : Option Str
  failedLookupLocations : List Str
deriving DecidableEq, Repr

/-- One emitted text change: target file, replaced range, replacement text. -/
structure TextEdit where
  fileName : Str
  rangeStart : Nat
  rangeEnd : Nat
  newText : Str
deriving DecidableEq, Repr

/-- An element of the configuration's `files` array initializer: a string
literal or something else (skipped silently). -/
inductive ConfigElement
  | stringLiteral (node : StringLiteralNode)
  | otherElement
deriving DecidableEq, Repr

/-- The initializer of a `files` property: an array literal or something else
(skipped silently). -/
inductive ConfigInitializer
  | arrayLiteral (elements : List ConfigElement)
  | otherInitializer
deriving DecidableEq, Repr

/-- One `files` property of the configuration file. -/
structure ConfigProperty where
  initializer : ConfigInitializer
deriving DecidableEq, Repr

/-- The project configuration file: its path and its `files` properties (the
result of `getTsConfigPropArray(configFile, "files")`). -/
structure ConfigFileModel where
  fileName : Str
  filesProperties : List ConfigProperty
deriving DecidableEq, Repr

/-- Source `createStringRange`: the range strictly between the delimiting
quotes of a string literal. -/
def createStringRange (node : StringLiteralNode) : Nat × Nat :=
  (node.startPos + 1, node.endPos - 1)

/-- One loop of `updateImportsWorker` / `updateTsconfigFiles`: run the updater
over each item, emitting an edit at the item's range exactly when the updater
returns a replacement, and propagating a throw. -/
def editsFor {α : Type} (fileName : Str) (f : α → Except Unit (Option Str))
    (rng : α → Nat × Nat) : List α → Except Unit (List TextEdit)
  | [] => Except.ok []
  | x :: xs => do
    let r ← f x
    let rest ← editsFor fileName f rng xs
    match r with
    | some u =>
      pure ({ fileName := fileName, rangeStart := (rng x).1, rangeEnd := (rng x).2,
              newText := u } :: rest)
    | none => pure rest

/-- Source `updateImportsWorker`: rewrite the reference directives (at their own
ranges) and the import string literals (strictly between their quotes). -/
def updateImportsWorker (sf : SourceFileModel)
    (updateRef updateImport : Str → Except Unit (Option Str)) :
    Except Unit (List TextEdit) := do
  let refEdits ← editsFor sf.fileName (fun r => updateRef r.fileName)
    (fun r => (r.pos, r.endPos)) sf.referencedFiles
  let importEdits ← editsFor sf.fileName (fun n => updateImport n.text)
    (fun n => createStringRange n) sf.imports
  pure (refEdits ++ importEdits)

/-- Modelled from the spec: `resolveTripleslashReference` — a reference
directive resolves relative to its containing file's directory, with no module
resolution. -/
def resolveTripleslashReference (refText containingFileName : Str) : Str :=
  if isRooted refText then normalizePath refText
  else combineNormal (getDirectoryPath containingFileName) refText

/-- Source `firstDefined` over a throwing updater: the first candidate for
which the updater yields a replacement, propagating a throw. -/
def firstDefinedUpdater (f : Str → Except Unit (Option Str)) :
    List Str → Except Unit (Option Str)
  | [] => Except.ok none
  | p :: ps => do
    match (← f p) with
    | some r => pure (some r)
    | none => firstDefinedUpdater f ps

/-- Source `updateImports`, import branch for a non-moving file: consult the
resolution cache (the host/program choice of the source is collapsed into one
collaborator), then try the resolved file name, else each failed-lookup
candidate in order. -/
def updateNonMovingImport (oldFileOrDirPath newFileOrDirPath : Str)
    (useCaseSensitiveFileNames : Bool)
    (resolver : Str → Str → Option ResolvedModuleWithFailedLookup)
    (sourceFileName importText : Str) : Except Unit (Option Str) :=
  match resolver importText sourceFileName with
  | none => Except.ok none
  | some resolved =>
    firstDefinedUpdater
      (fun path => externalPathUpdater oldFileOrDirPath newFileOrDirPath
        useCaseSensitiveFileNames path importText true)
      (match resolved.resolvedModule with
       | some m => [m]
       | none => resolved.failedLookupLocations)

/-- Source `updateImports`, membership test: a file is moving when its path
equals the old or new path or lies strictly inside either as a directory. -/
def isMovingFile (oldFileOrDirPath newFileOrDirPath fileName : Str) : Bool :=
  fileName == oldFileOrDirPath
    || jsTruthy (removeDirectoryPrefixFromPath oldFileOrDirPath fileName)
    || fileName == newFileOrDirPath
    || jsTruthy (removeDirectoryPrefixFromPath newFileOrDirPath fileName)

/-- Source `updateImports`: per project file, rewrite via the internal updater
when the file is moving, else via the external updater. -/
def updateImports (oldFileOrDirPath newFileOrDirPath : Str)
    (useCaseSensitiveFileNames : Bool)
    (resolver : Str → Str → Option ResolvedModuleWithFailedLookup) :
    List SourceFileModel → Except Unit (List TextEdit)
  | [] => Except.ok []
  | sf :: rest => do
    let here ←
      if isMovingFile oldFileOrDirPath newFileOrDirPath sf.fileName then
        updateImportsWorker sf
          (fun t => Except.ok (internalPathUpdater oldFileOrDirPath newFileOrDirPath sf.fileName t))
          (fun t => Except.ok (internalPathUpdater oldFileOrDirPath newFileOrDirPath sf.fileName t))
      else
        updateImportsWorker sf
          (fun t => externalPathUpdater oldFileOrDirPath newFileOrDirPath
            useCaseSensitiveFileNames (resolveTripleslashReference t sf.fileName) t false)
          (fun t => updateNonMovingImport oldFileOrDirPath newFileOrDirPath
            useCaseSensitiveFileNames resolver sf.fileName t)
    let more ← updateImports oldFileOrDirPath newFileOrDirPath useCaseSensitiveFileNames
      resolver rest
    pure (here ++ more)

/-- Source `updateTsconfigFiles`, element loop: rewrite each string literal for
which the external updater yields a replacement, at the range strictly between
its quotes; skip non-string elements silently. -/
def updateConfigElements (oldFileOrDirPath newFileOrDirPath : Str)
    (useCaseSensitiveFileNames : Bool) (configFileName : Str) :
    List ConfigElement → Except Unit (List TextEdit)
  | [] => Except.ok []
  | ConfigElement.otherElement :: rest =>
    updateConfigElements oldFileOrDirPath newFileOrDirPath useCaseSensitiveFileNames
      configFileName rest
  | ConfigElement.stringLiteral node :: rest => do
    let updated ← externalPathUpdater oldFileOrDirPath newFileOrDirPath
      useCaseSensitiveFileNames node.text node.text false
    let more ← updateConfigElements oldFileOrDirPath newFileOrDirPath
      useCaseSensitiveFileNames configFileName rest
    match updated with
    | some u =>
      pure ({ fileName := configFileName, rangeStart := node.startPos + 1,
              rangeEnd := node.endPos - 1, newText := u } :: more)
    | none => pure more

/-- Source `updateTsconfigFiles`, property loop: only array-literal
initializers contribute; others are skipped silently. -/
def updateConfigProperties (oldFileOrDirPath newFileOrDirPath : Str)
    (useCaseSensitiveFileNames : Bool) (configFileName : Str) :
    List ConfigProperty → Except Unit (List TextEdit)
  | [] => Except.ok []
  | p :: rest => do
    let here ←
      match p.initializer with
      | ConfigInitializer.arrayLiteral elements =>
        updateConfigElements oldFileOrDirPath newFileOrDirPath useCaseSensitiveFileNames
          configFileName elements
      | ConfigInitializer.otherInitializer => pure []
    let more ← updateConfigProperties oldFileOrDirPath newFileOrDirPath
      useCaseSensitiveFileNames configFileName rest
    pure (here ++ more)

/-- Source `updateTsconfigFiles`: no configuration file means no config edits. -/
def updateTsconfigFiles (oldFileOrDirPath newFileOrDirPath : Str)
    (useCaseSensitiveFileNames : Bool) :
    Option ConfigFileModel → Except Unit (List TextEdit)
  | none => Except.ok []
  | some cfg =>
    updateConfigProperties oldFileOrDirPath newFileOrDirPath useCaseSensitiveFileNames
      cfg.fileName cfg.filesProperties

/-- Source `getEditsForFileRename`: configuration edits first, then import
edits, over the supplied project snapshot. -/
def getEditsForFileRename (oldFileOrDirPath newFileOrDirPath : Str)
    (useCaseSensitiveFileNames : Bool) (files : List SourceFileModel)
    (resolver : Str → Str → Option ResolvedModuleWithFailedLookup)
    (configFile : Option ConfigFileModel) : Except Unit (List TextEdit) := do
  let configEdits ← updateTsconfigFiles oldFileOrDirPath newFileOrDirPath
    useCaseSensitiveFileNames configFile
  let importEdits ← updateImports oldFileOrDirPath newFileOrDirPath
    useCaseSensitiveFileNames resolver files
  pure (configEdits ++ importEdits)

deriving instance DecidableEq for Except

/-- Claim C1's reading of the internal updater, verbatim: case 2 fires only
when stripping `deltaOldToNew ++ "/"` leaves a NON-EMPTY remainder; an empty
remainder falls through to `combine(deltaNewToOld, importText)`. -/
def internalPathUpdaterClaim (oldPath newPath sourceFileName importText : Str) : Option Str :=
  let deltaNewToOld := getRelative newPath oldPath
  if deltaNewToOld = ['.'] then none
  else
    let deltaOldToNew := getRelative oldPath newPath
    if !pathIsRelative importText
        || importIsInternalToDirectory oldPath sourceFileName importText
        || importIsInternalToDirectory newPath sourceFileName importText then none
    else
      match tryRemoveStart importText (deltaOldToNew ++ ['/']) with
      | some short =>
        if short.isEmpty then some (combineNormal deltaNewToOld importText)
        else some (ensurePathIsNonModuleName short)
      | none => some (combineNormal deltaNewToOld importText)

/-- Claim C1 amended: the same total case analysis, except that case 2 fires
whenever stripping the `deltaOldToNew ++ "/"` front succeeds, even when the
remainder is empty. -/
def internalPathUpdaterAmendedSpec (oldPath newPath sourceFileName importText : Str) :
    Option Str :=
  let deltaNewToOld := getRelative newPath oldPath
  if deltaNewToOld = ['.'] then none
  else
    let deltaOldToNew := getRelative oldPath newPath
    if !pathIsRelative importText
        || importIsInternalToDirectory oldPath sourceFileName importText
        || importIsInternalToDirectory newPath sourceFileName importText then none
    else
      match tryRemoveStart importText (deltaOldToNew ++ ['/']) with
      | some short => some (ensurePathIsNonModuleName short)
      | none => some (combineNormal deltaNewToOld importText)

/-- Claim C3's reading of the `resolvedAbsolutePath == oldPath` branch,
verbatim: for relative text, `rel` is appended directly when the text has no
index-like suffix, and after stripping one trailing directory level when it
does. -/
def externalEqualCaseClaim (oldPath newPath : Str) (useCaseSensitiveFileNames : Bool)
    (importText : Str) (isImport : Bool) : Str :=
  let rel := getRelativePathFromFile oldPath newPath (!useCaseSensitiveFileNames)
  let newImportText :=
    if pathIsRelative importText then
      combinePathsSafe
        (if !endsWithSomeIndex importText then importText else getDirectoryPath importText) rel
    else newPath
  if isImport then pathToImportPath newImportText else newImportText

/-- Claim C3 amended: for relative text, `rel` is appended after stripping one
trailing directory level from the text, EXCEPT when the resolved path itself
carries an index/package ending and the text has no index-like suffix, in
which case `rel` is appended to the whole text. -/
def externalEqualCaseAmended (oldPath newPath : Str) (useCaseSensitiveFileNames : Bool)
    (importText : Str) (isImport : Bool) : Str :=
  let rel := getRelativePathFromFile oldPath newPath (!useCaseSensitiveFileNames)
  let newImportText :=
    if pathIsRelative importText then
      combinePathsSafe
        (if jsTruthy (tryRemoveIndexOrPackage oldPath) && !endsWithSomeIndex importText then
          importText
        else getDirectoryPath importText) rel
    else newPath
  if isImport then pathToImportPath newImportText else newImportText

/-- Claim C9's reading of `getRelative`: the directory-level delta computed
honoring the host case-sensitivity flag (the source hard-codes case-sensitive
instead). -/
def getRelativeFlagged (useCaseSensitiveFileNames : Bool) (fromPath toPath : Str) : Str :=
  ensurePathIsNonModuleName
    (getRelativePathFromDirectory (toDirectory fromPath) (toDirectory toPath)
      (!useCaseSensitiveFileNames))

/-- Claim C9's reading of the internal updater: its directory-delta
computations honor the host case-sensitivity flag. -/
def internalPathUpdaterFlagged (oldPath newPath : Str) (useCaseSensitiveFileNames : Bool)
    (sourceFileName importText : Str) : Option Str :=
  let relativeNewDirToOldDir := getRelativeFlagged useCaseSensitiveFileNames newPath oldPath
  if relativeNewDirToOldDir = ['.'] then none
  else
    let relativeOldDirToNewDir := getRelativeFlagged useCaseSensitiveFileNames oldPath newPath
    if !pathIsRelative importText
        || importIsInternalToDirectory oldPath sourceFileName importText
        || importIsInternalToDirectory newPath sourceFileName importText then none
    else
      match tryRemoveStart importText (relativeOldDirToNewDir ++ ['/']) with
      | some short => some (ensurePathIsNonModuleName short)
      | none => some (combineNormal relativeNewDirToOldDir importText)

/-- Project shape of spec Scenario A: `/p/a.ts` imports `./old`, which resolves
to `/p/old.ts`; the moved file itself is also in the project. -/
def scenarioAFiles : List SourceFileModel :=
  [{ fileName := "/p/a.ts".data, referencedFiles := [],
     imports := [{ text := "./old".data, startPos := 20, endPos := 27 }] },
   { fileName := "/p/old.ts".data, referencedFiles := [], imports := [] }]

/-- Resolver of spec Scenario A. -/
def scenarioAResolver : Str → Str → Option ResolvedModuleWithFailedLookup :=
  fun t f =>
    if t = "./old".data ∧ f = "/p/a.ts".data then
      some { resolvedModule := some "/p/old.ts".data, failedLookupLocations := [] }
    else none

/-- Project shape refuting claim C4: a single non-moving file whose import
resolves to the (unchanged) old path. -/
def noopRenameFiles : List SourceFileModel :=
  [{ fileName := "/p/a.ts".data, referencedFiles := [],
     imports := [{ text := "./x".data, startPos := 10, endPos := 15 }] }]

/-- Resolver for the claim C4 refutation. -/
def noopRenameResolver : Str → Str → Option ResolvedModuleWithFailedLookup :=
  fun t f =>
    if t = "./x".data ∧ f = "/p/a.ts".data then
      some { resolvedModule := some "/p/x.ts".data, failedLookupLocations := [] }
    else none

/-- Elements of the configuration file refuting claim C8: one string entry
strictly inside the old directory (not textually equal to it) and one
non-string entry. -/
def configCounterexampleElements : List ConfigElement :=
  [ConfigElement.stringLiteral { text := "/p/dir/a.ts".data, startPos := 5, endPos := 18 },
   ConfigElement.otherElement]

/-- Configuration file refuting claim C8. -/
def configCounterexampleFile : ConfigFileModel :=
  { fileName := "/p/tsconfig.json".data,
    filesProperties :=
      [{ initializer := ConfigInitializer.arrayLiteral configCounterexampleElements }] }

/-- Source file used to witness the edit-range property on a concrete run. -/
def quotesWitnessFile : SourceFileModel :=
  { fileName := "/p/a.ts".data, referencedFiles := [],
    imports := [{ text := "./old".data, startPos := 20, endPos := 27 }] }

/-- Edit produced on `quotesWitnessFile` by an identity updater. -/
def quotesWitnessEdit : TextEdit :=
  { fileName := "/p/a.ts".data, rangeStart := 21, rangeEnd := 26, newText := "./old".data }

theorem strStartsWith_iff (s p : Str) : strStartsWith s p = true ↔ p <+: s := by
  simp [strStartsWith, List.isPrefixOf_iff_prefix]

theorem strEndsWith_iff (s p : Str) : strEndsWith s p = true ↔ p <:+ s := by
  simp [strEndsWith, List.isSuffixOf_iff_suffix]

theorem tryRemoveStart_eq_some (s p r : Str) :
    tryRemoveStart s p = some r ↔ s = p ++ r := by
  unfold tryRemoveStart
  by_cases hp : strStartsWith s p = true
  · rw [if_pos hp]
    have hpre : p <+: s := (strStartsWith_iff s p).mp hp
    constructor
    · intro h
      cases Option.some.inj h
      exact (List.prefix_iff_eq_append.mp hpre).symm
    · intro h
      subst h
      rw [List.drop_left]
  · rw [if_neg hp]
    constructor
    · intro h; cases h
    · intro h
      subst h
      exact absurd ((strStartsWith_iff _ _).mpr (List.prefix_append p r)) hp

theorem tryRemoveSuffix_eq_some (s suf r : Str) :
    tryRemoveSuffix s suf = some r ↔ s = r ++ suf := by
  unfold tryRemoveSuffix
  by_cases hp : strEndsWith s suf = true
  · rw [if_pos hp]
    have hsuf : suf <:+ s := (strEndsWith_iff s suf).mp hp
    obtain ⟨t, ht⟩ := hsuf
    constructor
    · intro h
      cases Option.some.inj h
      subst ht
      rw [List.length_append, Nat.add_sub_cancel, List.take_left]
    · intro h
      subst h
      rw [List.length_append, Nat.add_sub_cancel, List.take_left]
  · rw [if_neg hp]
    constructor
    · intro h; cases h
    · intro h
      subst h
      exact absurd ((strEndsWith_iff _ _).mpr (List.suffix_append r suf)) hp

theorem tryRemoveSuffix_append (p suf : Str) : tryRemoveSuffix (p ++ suf) suf = some p :=
  (tryRemoveSuffix_eq_some (p ++ suf) suf p).mpr rfl

theorem strEndsWith_append_self (x s : Str) : strEndsWith (x ++ s) s = true :=
  (strEndsWith_iff _ _).mpr (List.suffix_append x s)

theorem strEndsWith_append_of_le (p c e : Str) (h : e.length ≤ c.length) :
    strEndsWith (p ++ c) e = strEndsWith c e := by
  rw [Bool.eq_iff_iff]
  constructor
  · intro hs
    exact (strEndsWith_iff _ _).mpr
      (List.suffix_of_suffix_length_le ((strEndsWith_iff _ _).mp hs) (List.suffix_append p c) h)
  · intro hs
    exact (strEndsWith_iff _ _).mpr (((strEndsWith_iff _ _).mp hs).trans (List.suffix_append p c))

theorem strEndsWith_append_of_ge (p c e : Str) (h : c.length ≤ e.length) (hne : ¬ c <:+ e) :
    strEndsWith (p ++ c) e = false := by
  rw [Bool.eq_false_iff]
  intro hs
  exact hne (List.suffix_of_suffix_length_le (List.suffix_append p c)
    ((strEndsWith_iff _ _).mp hs) h)

theorem tryRemoveIndexOrPackage_append_indexts (p : Str) :
    tryRemoveIndexOrPackage (p ++ "/index.ts".data) = some p := by
  have h1 : tryRemoveSuffix (p ++ "/index.ts".data) "/package.json".data = none := by
    simp [tryRemoveSuffix, strEndsWith_append_of_ge p "/index.ts".data "/package.json".data
      (by decide) (by decide)]
  have h2 : tryRemoveSuffix (p ++ "/index.ts".data) "/index.js".data = none := by
    have hb : strEndsWith "/index.ts".data "/index.js".data = false := by decide
    simp [tryRemoveSuffix, strEndsWith_append_of_le p "/index.ts".data "/index.js".data
      (by decide), hb]
  have h3 : tryRemoveSuffix (p ++ "/index.ts".data) "/index.jsx".data = none := by
    simp [tryRemoveSuffix, strEndsWith_append_of_ge p "/index.ts".data "/index.jsx".data
      (by decide) (by decide)]
  have h4 : tryRemoveSuffix (p ++ "/index.ts".data) "/index.ts".data = some p :=
    tryRemoveSuffix_append p "/index.ts".data
  simp [tryRemoveIndexOrPackage, indexEndings, List.findSome?, h1, h2, h3, h4]

theorem tryRemoveIndexOrPackage_append_packagejson (p : Str) :
    tryRemoveIndexOrPackage (p ++ "/package.json".data) = some p := by
  have h1 : tryRemoveSuffix (p ++ "/package.json".data) "/package.json".data = some p :=
    tryRemoveSuffix_append p "/package.json".data
  simp [tryRemoveIndexOrPackage, indexEndings, List.findSome?, h1]

theorem pathToImportPath_append_indexts (p : Str) :
    pathToImportPath (p ++ "/index.ts".data) = p := by
  unfold pathToImportPath
  rw [tryRemoveIndexOrPackage_append_indexts]

theorem pathToImportPath_append_packagejson (p : Str) :
    pathToImportPath (p ++ "/package.json".data) = p := by
  unfold pathToImportPath
  rw [tryRemoveIndexOrPackage_append_packagejson]

theorem pathToImportPath_no_index (p : Str) (h : tryRemoveIndexOrPackage p = none) :
    pathToImportPath p = removeFileExtension p := by
  simp [pathToImportPath, h]

theorem editsFor_none {α : Type} (fl : Str) (f : α → Except Unit (Option Str))
    (rng : α → Nat × Nat) (l : List α) (h : ∀ x ∈ l, f x = Except.ok none) :
    editsFor fl f rng l = Except.ok [] := by
  induction l with
  | nil => rfl
  | cons x xs ih =>
    have hx : f x = Except.ok none := h x (by simp)
    have hxs : editsFor fl f rng xs = Except.ok [] := ih (fun y hy => h y (by simp [hy]))
    rw [editsFor, hx, hxs]
    rfl

theorem editsFor_mem {α : Type} (fl : Str) (f : α → Except Unit (Option Str))
    (rng : α → Nat × Nat) :
    ∀ (l : List α) (r : List TextEdit), editsFor fl f rng l = Except.ok r →
      ∀ e ∈ r, e.fileName = fl ∧
        ∃ x ∈ l, e.rangeStart = (rng x).1 ∧ e.rangeEnd = (rng x).2 := by
  intro l
  induction l with
  | nil =>
    intro r hr e he
    rw [editsFor] at hr
    cases hr
    simp at he
  | cons x xs ih =>
    intro r hr e he
    rw [editsFor] at hr
    cases hfx : f x with
    | error u => rw [hfx] at hr; cases hr
    | ok v =>
      rw [hfx] at hr
      cases hrec : editsFor fl f rng xs with
      | error u =>
        rw [hrec] at hr
        cases v <;> cases hr
      | ok rest =>
        rw [hrec] at hr
        cases v with
        | none =>
          have hr2 : rest = r := Except.ok.inj hr
          subst hr2
          obtain ⟨hfl, y, hy, hrng⟩ := ih rest hrec e he
          exact ⟨hfl, y, by simp [hy], hrng⟩
        | some u =>
          have hr2 : TextEdit.mk fl (rng x).1 (rng x).2 u :: rest = r := Except.ok.inj hr
          subst hr2
          cases he with
          | head =>
            exact ⟨rfl, x, by simp, rfl, rfl⟩
          | tail _ hmem =>
            obtain ⟨hfl, y, hy, hrng⟩ := ih rest hrec e hmem
            exact ⟨hfl, y, by simp [hy], hrng⟩

theorem firstDefinedUpdater_first (f : Str → Except Unit (Option Str)) :
    ∀ (l₁ : List Str) (p : Str) (l₂ : List Str) (u : Str),
      (∀ q ∈ l₁, f q = Except.ok none) → f p = Except.ok (some u) →
      firstDefinedUpdater f (l₁ ++ p :: l₂) = Except.ok (some u) := by
  intro l₁
  induction l₁ with
  | nil =>
    intro p l₂ u h1 h2
    rw [List.nil_append, firstDefinedUpdater, h2]
    rfl
  | cons q qs ih =>
    intro p l₂ u h1 h2
    have hq : f q = Except.ok none := h1 q (by simp)
    rw [List.cons_append, firstDefinedUpdater, hq]
    exact ih p l₂ u (fun y hy => h1 y (by simp [hy])) h2

theorem countCommon_self (ic : Bool) (l : List Str) : countCommon ic l l = l.length := by
  induction l with
  | nil => rfl
  | cons a as ih => simp [countCommon, ih]

theorem getRelativePathFromDirectory_self (d : Str) (ic : Bool) :
    getRelativePathFromDirectory d d ic = ['.'] := by
  simp [getRelativePathFromDirectory, countCommon_self]

theorem getRelative_self (p : Str) : getRelative p p = ['.'] := by
  unfold getRelative
  rw [getRelativePathFromDirectory_self]
  rfl

theorem internalPathUpdater_self (p sourceFileName importText : Str) :
    internalPathUpdater p p sourceFileName importText = none := by
  unfold internalPathUpdater
  rw [getRelative_self]
  simp

theorem externalPathUpdater_not_inside (oldPath newPath : Str) (cs : Bool)
    (fullPath importText : Str) (isImport : Bool) (h1 : fullPath ≠ oldPath)
    (h2 : removeDirectoryPrefixFromPath oldPath fullPath = none) :
    externalPathUpdater oldPath newPath cs fullPath importText isImport = Except.ok none := by
  unfold externalPathUpdater
  rw [if_neg h1, h2]

theorem updateImportsWorker_none (sf : SourceFileModel)
    (updateRef updateImport : Str → Except Unit (Option Str))
    (h1 : ∀ r ∈ sf.referencedFiles, updateRef r.fileName = Except.ok none)
    (h2 : ∀ n ∈ sf.imports, updateImport n.text = Except.ok none) :
    updateImportsWorker sf updateRef updateImport = Except.ok [] := by
  unfold updateImportsWorker
  rw [editsFor_none _ _ _ _ (fun r hr => h1 r hr), editsFor_none _ _ _ _ (fun n hn => h2 n hn)]
  rfl

theorem updateNonMovingImport_unresolved (oldPath newPath : Str) (cs : Bool)
    (resolver : Str → Str → Option ResolvedModuleWithFailedLookup)
    (sourceFileName importText : Str) (h : resolver importText sourceFileName = none) :
    updateNonMovingImport oldPath newPath cs resolver sourceFileName importText =
      Except.ok none := by
  unfold updateNonMovingImport
  rw [h]

theorem updateImports_noop (oldPath : Str) (cs : Bool)
    (resolver : Str → Str → Option ResolvedModuleWithFailedLookup)
    (hres : ∀ t f, resolver t f = none) :
    ∀ files : List SourceFileModel,
      (∀ sf ∈ files, ∀ r ∈ sf.referencedFiles,
        resolveTripleslashReference r.fileName sf.fileName ≠ oldPath ∧
        removeDirectoryPrefixFromPath oldPath
          (resolveTripleslashReference r.fileName sf.fileName) = none) →
      updateImports oldPath oldPath cs resolver files = Except.ok [] := by
  intro files
  induction files with
  | nil => intro _; rfl
  | cons sf rest ih =>
    intro h
    have hrest : updateImports oldPath oldPath cs resolver rest = Except.ok [] :=
      ih (fun f hf => h f (by simp [hf]))
    have hsf := h sf (by simp)
    rw [updateImports]
    cases hm : isMovingFile oldPath oldPath sf.fileName with
    | true =>
      rw [if_pos rfl]
      rw [updateImportsWorker_none sf _ _
        (fun r _ => by rw [internalPathUpdater_self])
        (fun n _ => by rw [internalPathUpdater_self]), hrest]
      rfl
    | false =>
      rw [if_neg (by decide)]
      rw [updateImportsWorker_none sf _ _
        (fun r hr => externalPathUpdater_not_inside _ _ _ _ _ _ (hsf r hr).1 (hsf r hr).2)
        (fun n _ => updateNonMovingImport_unresolved _ _ _ _ _ _ (hres _ _)), hrest]
      rfl

theorem removeDirectoryPrefixFromPath_eq_some (directory path s : Str) :
    removeDirectoryPrefixFromPath directory path = some s ↔
      path = directory ++ s ∧ ∃ t, s = '/' :: t := by
  constructor
  · intro hc
    unfold removeDirectoryPrefixFromPath at hc
    split at hc
    · cases hc
    · rename_i w hw
      split at hc
      · rename_i hsw
        obtain ⟨t0, ht0⟩ := (strStartsWith_iff w "/".data).mp hsw
        cases Option.some.inj hc
        exact ⟨(tryRemoveStart_eq_some _ _ _).mp hw, t0, ht0.symm⟩
      · cases hc
  · rintro ⟨hp, t, ht⟩
    subst ht
    subst hp
    unfold removeDirectoryPrefixFromPath
    rw [(tryRemoveStart_eq_some (directory ++ '/' :: t) directory ('/' :: t)).mpr rfl]
    show (if strStartsWith ('/' :: t) "/".data = true then some ('/' :: t) else none) =
      some ('/' :: t)
    rw [if_pos ((strStartsWith_iff ('/' :: t) "/".data).mpr ⟨t, rfl⟩)]

theorem removeDirectoryPrefixFromPath_ne (directory path s : Str)
    (h : removeDirectoryPrefixFromPath directory path = some s) : path ≠ directory := by
  obtain ⟨hp, t, ht⟩ := (removeDirectoryPrefixFromPath_eq_some _ _ _).mp h
  subst ht
  intro he
  rw [he] at hp
  have : (directory : Str).length = (directory ++ '/' :: t).length := by rw [← hp]
  simp [List.length_append] at this

theorem updateConfigElements_mem (oldPath newPath : Str) (cs : Bool) (cfgName : Str) :
    ∀ (elements : List ConfigElement) (r : List TextEdit),
      updateConfigElements oldPath newPath cs cfgName elements = Except.ok r →
      ∀ e ∈ r, ∃ n : StringLiteralNode, ConfigElement.stringLiteral n ∈ elements ∧
        e.fileName = cfgName ∧ e.rangeStart = n.startPos + 1 ∧ e.rangeEnd = n.endPos - 1 := by
  intro elements
  induction elements with
  | nil =>
    intro r hr e he
    rw [updateConfigElements] at hr
    cases hr
    simp at he
  | cons x xs ih =>
    intro r hr e he
    cases x with
    | otherElement =>
      rw [updateConfigElements] at hr
      obtain ⟨n, hn, rest⟩ := ih r hr e he
      exact ⟨n, by simp [hn], rest⟩
    | stringLiteral node =>
      rw [updateConfigElements] at hr
      cases hup : externalPathUpdater oldPath newPath cs node.text node.text false with
      | error u => rw [hup] at hr; cases hr
      | ok v =>
        rw [hup] at hr
        cases hrec : updateConfigElements oldPath newPath cs cfgName xs with
        | error u => rw [hrec] at hr; cases v <;> cases hr
        | ok rest =>
          rw [hrec] at hr
          cases v with
          | none =>
            have hr2 : rest = r := Except.ok.inj hr
            subst hr2
            obtain ⟨n, hn, hrest⟩ := ih rest hrec e he
            exact ⟨n, by simp [hn], hrest⟩
          | some u =>
            have hr2 : TextEdit.mk cfgName (node.startPos + 1) (node.endPos - 1) u :: rest = r :=
              Except.ok.inj hr
            subst hr2
            cases he with
            | head => exact ⟨node, by simp, rfl, rfl, rfl⟩
            | tail _ hmem =>
              obtain ⟨n, hn, hrest⟩ := ih rest hrec e hmem
              exact ⟨n, by simp [hn], hrest⟩

/-- C1 (corrected), counterexample: at `oldPath = "/p/dir"`, `newPath =
"/p/sub/dir"`, source file `"/q/x/a.ts"` and import text `"../sub/dir/"`,
stripping `deltaOldToNew ++ "/"` succeeds with an EMPTY remainder; the code
returns `ensurePathIsNonModuleName "" = "./"`, while the claim's case analysis
(which requires a non-empty remainder for case 2) prescribes
`combine(deltaNewToOld, importText) = "../../sub/dir"`. -/
theorem internal_updater_claim_counterexample :
    internalPathUpdater "/p/dir".data "/p/sub/dir".data "/q/x/a.ts".data "../sub/dir/".data =
        some "./".data ∧
    internalPathUpdaterClaim "/p/dir".data "/p/sub/dir".data "/q/x/a.ts".data
        "../sub/dir/".data = some "../../sub/dir".data ∧
    internalPathUpdater "/p/dir".data "/p/sub/dir".data "/q/x/a.ts".data "../sub/dir/".data ≠
      internalPathUpdaterClaim "/p/dir".data "/p/sub/dir".data "/q/x/a.ts".data
        "../sub/dir/".data := by
  decide

/-- C1 (amended): the internal path updater is exactly the claimed total case
analysis, except that case 2 fires whenever stripping `deltaOldToNew ++ "/"`
from the import text succeeds — even when the remainder is empty. -/
theorem internal_updater_total_case_analysis
    (oldPath newPath sourceFileName importText : Str) :
    internalPathUpdater oldPath newPath sourceFileName importText =
      internalPathUpdaterAmendedSpec oldPath newPath sourceFileName importText := rfl

/-- C2 (corrected), counterexample: the import `"./old/a"` resolving to
`"/p/old/a.ts"` (strictly inside the old directory `"/p/old"`) is rewritten to
`"./new/a"`: the appended suffix is the module-specifier form `"/a"` of the
resolved suffix `"/a.ts"`, NOT a byte-identical copy of it. -/
theorem external_suffix_claim_counterexample :
    externalPathUpdater "/p/old".data "/p/new".data true "/p/old/a.ts".data "./old/a".data
        true = Except.ok (some "./new/a".data) ∧
    removeDirectoryPrefixFromPath "/p/old".data "/p/old/a.ts".data = some "/a.ts".data ∧
    strEndsWith "./new/a".data "/a.ts".data = false := by
  decide

/-- C2 (amended): for a reference resolving strictly inside the old directory,
every replacement the external updater produces ends with the resolved suffix
rendered in module-specifier form for imports (and with the resolved suffix
itself, byte-identical, for non-imports); when the resolved path is neither the
old path nor strictly inside it, the updater returns no change. -/
theorem external_inside_suffix_preserved (oldPath newPath : Str) (cs : Bool)
    (fullPath importText : Str) (isImport : Bool) (h1 : fullPath ≠ oldPath) :
    (removeDirectoryPrefixFromPath oldPath fullPath = none →
      externalPathUpdater oldPath newPath cs fullPath importText isImport = Except.ok none) ∧
    (∀ relToOld res, removeDirectoryPrefixFromPath oldPath fullPath = some relToOld →
      externalPathUpdater oldPath newPath cs fullPath importText isImport =
        Except.ok (some res) →
      strEndsWith res (if isImport then pathToImportPath relToOld else relToOld) = true) := by
  constructor
  · intro h2
    exact externalPathUpdater_not_inside _ _ _ _ _ _ h1 h2
  · intro relToOld res h2 h3
    unfold externalPathUpdater at h3
    rw [if_neg h1, h2] at h3
    split at h3
    · rename_i heq
      cases heq
    · rename_i withoutDir heq
      cases Option.some.inj heq
      split at h3
      · split at h3
        · cases h3
        · cases Option.some.inj (Except.ok.inj h3)
          exact strEndsWith_append_self _ _
      · cases Option.some.inj (Except.ok.inj h3)
        exact strEndsWith_append_self _ _

/-- Witness for the C2 theorem at a concrete input: the non-import entry
`"/p/old/a.ts"` keeps its resolved suffix `"/a.ts"` byte-for-byte. -/
theorem external_inside_suffix_preserved_witness :
    strEndsWith "/p/new/a.ts".data
      (if false then pathToImportPath "/a.ts".data else "/a.ts".data) = true :=
  (external_inside_suffix_preserved "/p/old".data "/p/new".data true "/p/old/a.ts".data
    "/p/old/a.ts".data false (by decide)).2 "/a.ts".data "/p/new/a.ts".data (by decide)
    (by decide)

/-- C3 (corrected), counterexample: renaming `/p/old.ts` to `/p/new.ts`, the
text `"./old"` (which has no index-like suffix) is rewritten to `"./new"` —
the code strips one directory level because the resolved path carries no
index/package ending — whereas the claim's rule ("append rel directly when the
text has no index-like suffix") prescribes `"./old/new"`. -/
theorem external_equal_claim_counterexample :
    externalPathUpdater "/p/old.ts".data "/p/new.ts".data true "/p/old.ts".data "./old".data
        true = Except.ok (some "./new".data) ∧
    externalEqualCaseClaim "/p/old.ts".data "/p/new.ts".data true "./old".data true =
        "./old/new".data ∧
    ("./new".data : Str) ≠ "./old/new".data := by
  decide

/-- C3 (amended): in the `resolvedAbsolutePath == oldPath` case the external
updater builds the replacement by, for relative text, appending `rel` after
stripping one trailing directory level — except when the resolved path itself
carries an index/package ending and the text has no index-like suffix, in
which case `rel` is appended to the whole text; absolute/module-name text is
replaced wholesale with `newPath`; the result is in module-specifier form iff
the reference is an import.  In particular Scenario A holds: renaming
`/p/old.ts` to `/p/new.ts` rewrites the import `"./old"` in `/p/a.ts` to
`"./new"`. -/
theorem external_equal_case_analysis :
    (∀ (oldPath newPath : Str) (cs : Bool) (fullPath importText : Str) (isImport : Bool),
      fullPath = oldPath →
      externalPathUpdater oldPath newPath cs fullPath importText isImport =
        Except.ok (some (externalEqualCaseAmended oldPath newPath cs importText isImport))) ∧
    getEditsForFileRename "/p/old.ts".data "/p/new.ts".data true scenarioAFiles
        scenarioAResolver none =
      Except.ok [TextEdit.mk "/p/a.ts".data 21 26 "./new".data] := by
  constructor
  · intro oldPath newPath cs fullPath importText isImport h
    subst h
    unfold externalPathUpdater
    rw [if_pos rfl]
    rfl
  · decide

/-- Witness for the C3 theorem: its equal-path case analysis evaluated at the
Scenario A input. -/
theorem external_equal_case_analysis_witness :
    externalPathUpdater "/p/old.ts".data "/p/new.ts".data true "/p/old.ts".data "./old".data
        true =
      Except.ok (some (externalEqualCaseAmended "/p/old.ts".data "/p/new.ts".data true
        "./old".data true)) :=
  external_equal_case_analysis.1 "/p/old.ts".data "/p/new.ts".data true "/p/old.ts".data
    "./old".data true rfl

/-- C4 (corrected), counterexample: with `oldPath = newPath = "/p/x.ts"` and a
project in which `/p/a.ts` imports `"./x"` resolving to `/p/x.ts`, the
computation emits one text edit (here an identity rewrite), not zero. -/
theorem noop_rename_claim_counterexample :
    getEditsForFileRename "/p/x.ts".data "/p/x.ts".data true noopRenameFiles
        noopRenameResolver none =
      Except.ok [TextEdit.mk "/p/a.ts".data 11 14 "./x".data] ∧
    getEditsForFileRename "/p/x.ts".data "/p/x.ts".data true noopRenameFiles
        noopRenameResolver none ≠ Except.ok [] := by
  decide

/-- C4 (amended): when `oldPath = newPath` the moving files never contribute
edits (the internal updater's delta is `.`), and the whole computation emits
zero edits provided there is no configuration file, the resolver yields no
cached resolution, and no reference directive resolves to the old path or
strictly inside it; a reference resolving to the old path can still receive an
edit, as the counterexample shows. -/
theorem noop_rename_no_edits (oldPath : Str) (cs : Bool) (files : List SourceFileModel)
    (resolver : Str → Str → Option ResolvedModuleWithFailedLookup)
    (hres : ∀ t f, resolver t f = none)
    (hrefs : ∀ sf ∈ files, ∀ r ∈ sf.referencedFiles,
      resolveTripleslashReference r.fileName sf.fileName ≠ oldPath ∧
      removeDirectoryPrefixFromPath oldPath
        (resolveTripleslashReference r.fileName sf.fileName) = none) :
    getEditsForFileRename oldPath oldPath cs files resolver none = Except.ok [] := by
  unfold getEditsForFileRename
  rw [updateImports_noop oldPath cs resolver hres files hrefs]
  rfl

/-- Witness for the C4 theorem: a project with one non-moving file carrying one
reference directive and no resolvable imports yields zero edits under a
self-rename. -/
theorem noop_rename_no_edits_witness :
    getEditsForFileRename "/p/x.ts".data "/p/x.ts".data true
        [{ fileName := "/p/a.ts".data,
           referencedFiles := [{ fileName := "b.ts".data, pos := 3, endPos := 7 }],
           imports := [] }]
        (fun _ _ => none) none = Except.ok [] :=
  noop_rename_no_edits "/p/x.ts".data true _ _ (fun _ _ => rfl) (by decide)

/-- C5 (confirmed): the module-specifier conversion strips exactly one trailing
`/index.ts`-style or `/package.json` ending if present (the `∀ p` forms show a
single strip, for every prefix), otherwise one recognized file extension;
`toModuleSpecifier "/a/b/index.ts" = toModuleSpecifier "/a/b/package.json" =
"/a/b"`; and a raw (non-import) reference path is never stripped this way: the
external updater with `isImport = false` keeps the index ending that the
`isImport = true` rendering strips. -/
theorem pathToImportPath_strips_one_suffix :
    pathToImportPath "/a/b/index.ts".data = "/a/b".data ∧
    pathToImportPath "/a/b/package.json".data = "/a/b".data ∧
    (∀ p : Str, pathToImportPath (p ++ "/index.ts".data) = p) ∧
    (∀ p : Str, pathToImportPath (p ++ "/package.json".data) = p) ∧
    (∀ p : Str, tryRemoveIndexOrPackage p = none →
      pathToImportPath p = removeFileExtension p) ∧
    pathToImportPath "/a/b.ts".data = "/a/b".data ∧
    externalPathUpdater "/a/b/index.ts".data "/c/d/index.ts".data true "/a/b/index.ts".data
        "/a/b/index.ts".data false = Except.ok (some "/c/d/index.ts".data) ∧
    externalPathUpdater "/a/b/index.ts".data "/c/d/index.ts".data true "/a/b/index.ts".data
        "/a/b/index.ts".data true = Except.ok (some "/c/d".data) := by
  refine ⟨by decide, by decide, pathToImportPath_append_indexts,
    pathToImportPath_append_packagejson, pathToImportPath_no_index, by decide, by decide,
    by decide⟩

/-- Witness for the C5 theorem: the extension-stripping conjunct applied at a
path with no index/package ending. -/
theorem pathToImportPath_strips_one_suffix_witness :
    pathToImportPath "/q/w.js".data = removeFileExtension "/q/w.js".data :=
  pathToImportPath_strips_one_suffix.2.2.2.2.1 "/q/w.js".data (by decide)

/-- C6 (confirmed): `removeDirectoryPrefixFromPath dir path` returns `some s`
exactly when `path = dir ++ s` with `s` starting at a separator boundary (so
`path` lies strictly inside `dir`), and rejects the sibling false-positive
`removeDirectoryPrefixFromPath "/project/foo" "/project/foobar/x"`. -/
theorem removeDirectoryPrefix_characterization :
    (∀ directory path s : Str,
      removeDirectoryPrefixFromPath directory path = some s ↔
        path = directory ++ s ∧ ∃ t, s = '/' :: t) ∧
    removeDirectoryPrefixFromPath "/project/foo".data "/project/foobar/x".data = none :=
  ⟨removeDirectoryPrefixFromPath_eq_some, by decide⟩

/-- Witness for the C6 theorem: the characterization applied at a path strictly
inside the directory. -/
theorem removeDirectoryPrefix_characterization_witness :
    removeDirectoryPrefixFromPath "/a".data "/a/b".data = some "/b".data :=
  (removeDirectoryPrefix_characterization.1 "/a".data "/a/b".data "/b".data).mpr
    ⟨by decide, "b".data, by decide⟩

/-- C7 (confirmed): for an import in a non-moving file, a resolver miss yields
no change; on resolution failure the orchestrator runs the external updater
over the ordered failed-lookup candidates, the first candidate producing a
replacement wins, an empty candidate list produces no change, and an import
whose updater reports no change contributes no edit. -/
theorem failed_lookup_first_match :
    (∀ (oldPath newPath : Str) (cs : Bool)
        (resolver : Str → Str → Option ResolvedModuleWithFailedLookup)
        (sourceFileName importText : Str),
      resolver importText sourceFileName = none →
      updateNonMovingImport oldPath newPath cs resolver sourceFileName importText =
        Except.ok none) ∧
    (∀ (oldPath newPath : Str) (cs : Bool)
        (resolver : Str → Str → Option ResolvedModuleWithFailedLookup)
        (sourceFileName importText : Str) (r : ResolvedModuleWithFailedLookup),
      resolver importText sourceFileName = some r → r.resolvedModule = none →
      updateNonMovingImport oldPath newPath cs resolver sourceFileName importText =
        firstDefinedUpdater
          (fun path => externalPathUpdater oldPath newPath cs path importText true)
          r.failedLookupLocations) ∧
    (∀ (f : Str → Except Unit (Option Str)) (l₁ : List Str) (p : Str) (l₂ : List Str)
        (u : Str),
      (∀ q ∈ l₁, f q = Except.ok none) → f p = Except.ok (some u) →
      firstDefinedUpdater f (l₁ ++ p :: l₂) = Except.ok (some u)) ∧
    (∀ f : Str → Except Unit (Option Str), firstDefinedUpdater f [] = Except.ok none) ∧
    (∀ (fileName : Str) (f : StringLiteralNode → Except Unit (Option Str))
        (rng : StringLiteralNode → Nat × Nat) (x : StringLiteralNode),
      f x = Except.ok none → editsFor fileName f rng [x] = Except.ok []) := by
  refine ⟨?_, ?_, firstDefinedUpdater_first, fun f => rfl, ?_⟩
  · intro oldPath newPath cs resolver sourceFileName importText h
    exact updateNonMovingImport_unresolved _ _ _ _ _ _ h
  · intro oldPath newPath cs resolver sourceFileName importText r h1 h2
    unfold updateNonMovingImport
    rw [h1]
    show firstDefinedUpdater
        (fun path => externalPathUpdater oldPath newPath cs path importText true)
        (match r.resolvedModule with
         | some m => [m]
         | none => r.failedLookupLocations) =
      firstDefinedUpdater
        (fun path => externalPathUpdater oldPath newPath cs path importText true)
        r.failedLookupLocations
    rw [h2]
  · intro fileName f rng x h
    exact editsFor_none _ _ _ _ (fun y hy => by rw [List.mem_singleton.mp hy]; exact h)

/-- Witness for the C7 theorem: first-match-wins over an ordered candidate
list, at the Scenario A updater. -/
theorem failed_lookup_first_match_witness :
    firstDefinedUpdater
      (fun path => externalPathUpdater "/p/old.ts".data "/p/new.ts".data true path
        "./old".data true)
      (["/zzz".data] ++ "/p/old.ts".data :: ["/p/other.ts".data]) =
      Except.ok (some "./new".data) :=
  failed_lookup_first_match.2.2.1 _ ["/zzz".data] "/p/old.ts".data ["/p/other.ts".data]
    "./new".data (by decide) (by decide)

/-- C8 (corrected), counterexample: a `files` entry `"/p/dir/a.ts"` lying
strictly inside the old directory `"/p/dir"` — and textually different from
it — is also rewritten (to `newPath ++ suffix`), refuting "exactly the entries
that equal oldPath"; the non-string entry beside it is skipped silently. -/
theorem tsconfig_claim_counterexample :
    updateTsconfigFiles "/p/dir".data "/q/dir2".data true (some configCounterexampleFile) =
        Except.ok [TextEdit.mk "/p/tsconfig.json".data 6 17 "/q/dir2/a.ts".data] ∧
    ("/p/dir/a.ts".data : Str) ≠ "/p/dir".data := by
  decide

/-- C8 (amended): configuration-file handling rewrites the string entries of
the declared files list that equal `oldPath` textually (replaced by the
literal new path) AND those lying strictly inside the old directory (replaced
by `newPath` plus the preserved suffix); non-array initializers, non-string
elements and entries unrelated to the old path are skipped silently, without
an error. -/
theorem tsconfig_files_rewrite (oldPath newPath : Str) (cs : Bool) (cfgName : Str)
    (hold : pathIsRelative oldPath = false) :
    (updateTsconfigFiles oldPath newPath cs none = Except.ok []) ∧
    (updateTsconfigFiles oldPath newPath cs
        (some ⟨cfgName, [⟨ConfigInitializer.otherInitializer⟩]⟩) = Except.ok []) ∧
    (updateTsconfigFiles oldPath newPath cs
        (some ⟨cfgName, [⟨ConfigInitializer.arrayLiteral [ConfigElement.otherElement]⟩]⟩) =
      Except.ok []) ∧
    (∀ node : StringLiteralNode, node.text = oldPath →
      updateTsconfigFiles oldPath newPath cs
          (some ⟨cfgName,
            [⟨ConfigInitializer.arrayLiteral [ConfigElement.stringLiteral node]⟩]⟩) =
        Except.ok [TextEdit.mk cfgName (node.startPos + 1) (node.endPos - 1) newPath]) ∧
    (∀ (node : StringLiteralNode) (s : Str),
      removeDirectoryPrefixFromPath oldPath node.text = some s →
      pathIsRelative node.text = false →
      updateTsconfigFiles oldPath newPath cs
          (some ⟨cfgName,
            [⟨ConfigInitializer.arrayLiteral [ConfigElement.stringLiteral node]⟩]⟩) =
        Except.ok [TextEdit.mk cfgName (node.startPos + 1) (node.endPos - 1)
          (newPath ++ s)]) ∧
    (∀ node : StringLiteralNode, node.text ≠ oldPath →
      removeDirectoryPrefixFromPath oldPath node.text = none →
      updateTsconfigFiles oldPath newPath cs
          (some ⟨cfgName,
            [⟨ConfigInitializer.arrayLiteral [ConfigElement.stringLiteral node]⟩]⟩) =
        Except.ok []) := by
  refine ⟨rfl, rfl, rfl, ?_, ?_, ?_⟩
  · intro node hnode
    have hup : externalPathUpdater oldPath newPath cs node.text node.text false =
        Except.ok (some newPath) := by
      rw [hnode]
      unfold externalPathUpdater
      rw [if_pos rfl]
      unfold externalEqualNewImportText
      rw [hold]
      rfl
    simp only [updateTsconfigFiles, updateConfigProperties, updateConfigElements, hup]
    rfl
  · intro node s hs hrel
    have hne : node.text ≠ oldPath := removeDirectoryPrefixFromPath_ne _ _ _ hs
    have hup : externalPathUpdater oldPath newPath cs node.text node.text false =
        Except.ok (some (newPath ++ s)) := by
      unfold externalPathUpdater
      rw [if_neg hne, hs, hrel]
      rfl
    simp only [updateTsconfigFiles, updateConfigProperties, updateConfigElements, hup]
    rfl
  · intro node hne hnone
    have hup : externalPathUpdater oldPath newPath cs node.text node.text false =
        Except.ok none := externalPathUpdater_not_inside _ _ _ _ _ _ hne hnone
    simp only [updateTsconfigFiles, updateConfigProperties, updateConfigElements, hup]
    rfl

/-- Witness for the C8 theorem: a one-entry files array equal to the old path
is rewritten to the literal new path between its quotes. -/
theorem tsconfig_files_rewrite_witness :
    updateTsconfigFiles "/p/x.ts".data "/p/y.ts".data true
        (some ⟨"/p/tsconfig.json".data,
          [⟨ConfigInitializer.arrayLiteral
            [ConfigElement.stringLiteral ⟨"/p/x.ts".data, 5, 14⟩]⟩]⟩) =
      Except.ok [TextEdit.mk "/p/tsconfig.json".data 6 13 "/p/y.ts".data] :=
  (tsconfig_files_rewrite "/p/x.ts".data "/p/y.ts".data true "/p/tsconfig.json".data
    (by decide)).2.2.2.1 ⟨"/p/x.ts".data, 5, 14⟩ rfl

/-- C9 (corrected), counterexample: with a case-insensitive host
(`useCaseSensitiveFileNames = false`), the internal updater's directory deltas
(hard-coded case-sensitive in the source) differ from the flag-honoring
variant the claim describes: moving `/A/old` to `/a/new`, the import `"../z"`
in `/A/old/f.ts` becomes `"../../A/z"` under the code but `"../z"` under the
flag-honoring variant. -/
theorem case_sensitivity_claim_counterexample :
    internalPathUpdater "/A/old".data "/a/new".data "/A/old/f.ts".data "../z".data =
        some "../../A/z".data ∧
    internalPathUpdaterFlagged "/A/old".data "/a/new".data false "/A/old/f.ts".data
        "../z".data = some "../z".data ∧
    internalPathUpdater "/A/old".data "/a/new".data "/A/old/f.ts".data "../z".data ≠
      internalPathUpdaterFlagged "/A/old".data "/a/new".data false "/A/old/f.ts".data
        "../z".data := by
  decide

/-- C9 (amended): the external updater's relative-path computation honors the
host case-sensitivity flag (the flag demonstrably changes its output), but the
internal updater's directory-delta computations do NOT consult the flag: they
always behave as the flag-honoring variant fixed to case-sensitive. -/
theorem case_sensitivity_split :
    (∀ oldPath newPath sourceFileName importText : Str,
      internalPathUpdater oldPath newPath sourceFileName importText =
        internalPathUpdaterFlagged oldPath newPath true sourceFileName importText) ∧
    externalPathUpdater "/A/old.ts".data "/a/new.ts".data true "/A/old.ts".data "./old".data
        true ≠
      externalPathUpdater "/A/old.ts".data "/a/new.ts".data false "/A/old.ts".data
        "./old".data true :=
  ⟨fun _ _ _ _ => rfl, by decide⟩

/-- C10 (confirmed): every edit the worker emits for an import string literal
covers exactly the range strictly between the literal's quotes (literal start
+ 1 to literal end − 1) — reference-directive edits cover the directive's own
range — and every configuration-entry edit likewise covers exactly the range
strictly between the entry's quotes. -/
theorem edit_ranges_inside_quotes :
    (∀ (sf : SourceFileModel) (updateRef updateImport : Str → Except Unit (Option Str))
        (r : List TextEdit),
      updateImportsWorker sf updateRef updateImport = Except.ok r →
      ∀ e ∈ r, e.fileName = sf.fileName ∧
        ((∃ ref ∈ sf.referencedFiles, e.rangeStart = ref.pos ∧ e.rangeEnd = ref.endPos) ∨
         (∃ n ∈ sf.imports, e.rangeStart = n.startPos + 1 ∧ e.rangeEnd = n.endPos - 1))) ∧
    (∀ (oldPath newPath : Str) (cs : Bool) (cfgName : Str) (elements : List ConfigElement)
        (r : List TextEdit),
      updateConfigElements oldPath newPath cs cfgName elements = Except.ok r →
      ∀ e ∈ r, ∃ n : StringLiteralNode, ConfigElement.stringLiteral n ∈ elements ∧
        e.fileName = cfgName ∧ e.rangeStart = n.startPos + 1 ∧ e.rangeEnd = n.endPos - 1) := by
  constructor
  · intro sf updateRef updateImport r hr e he
    unfold updateImportsWorker at hr
    cases h1 : editsFor sf.fileName (fun x => updateRef x.fileName)
        (fun x => (x.pos, x.endPos)) sf.referencedFiles with
    | error u => rw [h1] at hr; cases hr
    | ok refEdits =>
      rw [h1] at hr
      cases h2 : editsFor sf.fileName (fun n => updateImport n.text)
          (fun n => createStringRange n) sf.imports with
      | error u => rw [h2] at hr; cases hr
      | ok importEdits =>
        rw [h2] at hr
        have hsplit : refEdits ++ importEdits = r := Except.ok.inj hr
        subst hsplit
        rcases List.mem_append.mp he with hm | hm
        · obtain ⟨hfl, x, hx, h3, h4⟩ := editsFor_mem _ _ _ _ _ h1 e hm
          exact ⟨hfl, Or.inl ⟨x, hx, h3, h4⟩⟩
        · obtain ⟨hfl, n, hn, h3, h4⟩ := editsFor_mem _ _ _ _ _ h2 e hm
          exact ⟨hfl, Or.inr ⟨n, hn, h3, h4⟩⟩
  · exact updateConfigElements_mem

/-- Witness for the C10 theorem: on a concrete worker run producing one import
edit, the edit's range is strictly between the literal's quotes. -/
theorem edit_ranges_inside_quotes_witness :
    quotesWitnessEdit.fileName = quotesWitnessFile.fileName ∧
    ((∃ ref ∈ quotesWitnessFile.referencedFiles,
        quotesWitnessEdit.rangeStart = ref.pos ∧ quotesWitnessEdit.rangeEnd = ref.endPos) ∨
     (∃ n ∈ quotesWitnessFile.imports,
        quotesWitnessEdit.rangeStart = n.startPos + 1 ∧
        quotesWitnessEdit.rangeEnd = n.endPos - 1)) :=
  edit_ranges_inside_quotes.1 quotesWitnessFile (fun t => Except.ok (some t))
    (fun t => Except.ok (some t)) [quotesWitnessEdit] (by decide) quotesWitnessEdit
    (by decide)
